import Mathlib

/-!
Shallow embedding of the query-routing and retrieval pipeline of the HR
knowledge-base backend, together with theorems settling the frozen claims
about it.

Conventions of the embedding:
* Python floats are modelled as exact rationals (ℚ); the source's decimal
  constants (0.7, 0.25, ...) are written as reduced fractions via Rat.mk'
  so that concrete computations reduce inside the kernel.
* Python dictionaries read with .get(key, default) are modelled as Option
  fields with an explicit default at the read site.
* Python truthiness of an optional string (None and "" are falsy) is the
  function optStrTruthy below.
* Lists keep python ordering; python's stable sorted(..., reverse=True)
  is modelled by insertion sort with a non-strict descending relation,
  which has the same stable behaviour.
-/

namespace HRKB

/-- Decimal constant 0.7 of the source as an exact rational. -/
def q0_7 : ℚ := Rat.mk' 7 10

/-- Decimal constant 0.4 of the source as an exact rational. -/
def q0_4 : ℚ := Rat.mk' 2 5

/-- Decimal constant 0.8 of the source as an exact rational. -/
def q0_8 : ℚ := Rat.mk' 4 5

/-- Decimal constant 0.5 of the source as an exact rational. -/
def q0_5 : ℚ := Rat.mk' 1 2

/-- Decimal constant 0.3 of the source as an exact rational. -/
def q0_3 : ℚ := Rat.mk' 3 10

/-- Decimal constant 0.25 of the source as an exact rational. -/
def q0_25 : ℚ := Rat.mk' 1 4

/-- Decimal constant 0.2 of the source as an exact rational. -/
def q0_2 : ℚ := Rat.mk' 1 5

/-- Decimal constant 0.15 of the source as an exact rational. -/
def q0_15 : ℚ := Rat.mk' 3 20

/-- Decimal constant 0.6 of the source as an exact rational. -/
def q0_6 : ℚ := Rat.mk' 3 5

/-- Decimal constant 0.9, used in concrete scenarios. -/
def q0_9 : ℚ := Rat.mk' 9 10

/-- Python's stable sorted(xs, key=key, reverse=True): insertion sort with the
non-strict descending-by-key relation places an element before the first
element with a key not larger than its own, which reproduces python's stable
descending order. -/
def pySortDescBy {α : Type} (key : α → ℚ) (l : List α) : List α :=
  List.insertionSort (fun a b => key b ≤ key a) l

/-- Output of pySortDescBy is a permutation of its input. -/
theorem pySortDescBy_perm {α : Type} (key : α → ℚ) (l : List α) :
    (pySortDescBy key l).Perm l :=
  List.perm_insertionSort _ l

/-- Output of pySortDescBy is sorted by the descending-by-key relation. -/
theorem pySortDescBy_sorted {α : Type} (key : α → ℚ) (l : List α) :
    (pySortDescBy key l).Sorted (fun a b => key b ≤ key a) := by
  haveI : IsTotal α (fun a b => key b ≤ key a) := ⟨fun a b => le_total (key b) (key a)⟩
  haveI : IsTrans α (fun a b => key b ≤ key a) := ⟨fun _ _ _ h1 h2 => le_trans h2 h1⟩
  exact List.sorted_insertionSort _ l

/-- Python truthiness of an optional string: None and the empty string are
falsy, every other string is truthy. -/
def optStrTruthy : Option String → Bool
  | none => false
  | some s => s != ""

/-- User roles of langchain_chains/models.py (UserRole). -/
inductive UserRole where
  | employee : UserRole
  | admin : UserRole
  | super_admin : UserRole
deriving DecidableEq, Repr

/-- User context of langchain_chains/models.py (UserContext): identity,
department and the folders the user may read. The permissions dict of the
source is always constructed empty and never read on the modelled paths. -/
structure UserContext where
  user_id : String
  username : String
  department : String
  department_id : String
  role : UserRole
  accessible_folders : List String
  can_upload : Bool
deriving DecidableEq, Repr

/-- Intent analysis of langchain_chains/models.py (IntentAnalysis). The
domain_scores dict is modelled as an association list. -/
structure IntentAnalysis where
  primary_intent : String
  confidence : ℚ
  keywords : List String
  domain_scores : List (String × ℚ)
  detected_department : Option String := none
deriving DecidableEq, Repr

/-- Retrieval strategy of langchain_chains/models.py (RetrievalStrategy).
The search_filters dict is either empty (none) or a department $in filter
over a folder list (some folders), which are the only two shapes the source
constructs. -/
structure RetrievalStrategy where
  primary_folders : List String
  secondary_folders : List String
  search_filters : Option (List String)
  max_results : Nat := 5
  relevance_threshold : ℚ := q0_3
  detected_department : Option String := none
  has_permission : Bool := true
deriving DecidableEq, Repr

/-- Number of words of a query: python's str.split() splits on whitespace
runs and drops empty pieces. -/
def pySplitCount (query : String) : Nat :=
  ((query.split Char.isWhitespace).filter (fun w => w != "")).length

/-- Embedding of retrieval_strategy_chain.py _calculate_max_results. -/
def calculate_max_results (query : String) (confidence : ℚ) : Nat :=
  let base0 : Int := 5
  let query_length := pySplitCount query
  let base1 : Int :=
    if query_length > 10 then base0 + 2
    else if query_length < 5 then base0 - 1
    else base0
  let base2 : Int :=
    if q0_8 < confidence then base1 + 1
    else if confidence < q0_3 then base1 + 2
    else base1
  (max 3 (min base2 10)).toNat

/-- Embedding of retrieval_strategy_chain.py _calculate_relevance_threshold. -/
def calculate_relevance_threshold (confidence : ℚ) : ℚ :=
  if q0_8 < confidence then q0_25
  else if q0_5 < confidence then q0_2
  else q0_15

/-- Embedding of retrieval_strategy_chain.py _build_search_filters: a
department $in filter over the target folders when they are non-empty,
otherwise the empty filter dict. -/
def build_search_filters (target_folders : List String) : Option (List String) :=
  if target_folders.isEmpty then none else some target_folders

/-- Primary folder list of the medium-confidence permitted branch of
retrieval_strategy_chain.py _determine_strategy: the detected department,
followed by 公共 when 公共 is accessible and is not already listed. -/
def strategy2_primary (user_context : UserContext) (intent_analysis : IntentAnalysis) :
    List String :=
  [intent_analysis.detected_department.getD ""]
    ++ (if "公共" ∈ user_context.accessible_folders
          ∧ ¬ "公共" ∈ [intent_analysis.detected_department.getD ""] then ["公共"] else [])

/-- Folder selection of retrieval_strategy_chain.py _determine_strategy
(lines 90-131): the pair (primary_folders, secondary_folders) chosen from
the detected department, the confidence and the caller's folders. -/
def strategy_folders (user_context : UserContext) (intent_analysis : IntentAnalysis) :
    List String × List String :=
  if optStrTruthy intent_analysis.detected_department ∧ q0_7 < intent_analysis.confidence then
    if intent_analysis.detected_department.getD "" ∈ user_context.accessible_folders then
      ([intent_analysis.detected_department.getD ""],
       user_context.accessible_folders.filter
         (fun f => f != intent_analysis.detected_department.getD ""))
    else
      ((if "公共" ∈ user_context.accessible_folders then ["公共"] else []), [])
  else if optStrTruthy intent_analysis.detected_department ∧ q0_4 < intent_analysis.confidence then
    if intent_analysis.detected_department.getD "" ∈ user_context.accessible_folders then
      (strategy2_primary user_context intent_analysis,
       user_context.accessible_folders.filter
         (fun f => !(strategy2_primary user_context intent_analysis).contains f))
    else
      ((if "公共" ∈ user_context.accessible_folders then ["公共"] else []), [])
  else
    if user_context.department ∈ user_context.accessible_folders
        ∧ user_context.department ≠ "公共" then
      ([user_context.department],
       user_context.accessible_folders.filter (fun f => f != user_context.department))
    else
      ((if user_context.accessible_folders.length > 1 then user_context.accessible_folders.take 2
        else user_context.accessible_folders),
       (if user_context.accessible_folders.length > 2 then user_context.accessible_folders.drop 2
        else []))

/-- Embedding of retrieval_strategy_chain.py _determine_strategy. -/
def determine_strategy (user_context : UserContext) (intent_analysis : IntentAnalysis)
    (query : String) : RetrievalStrategy :=
  let accessible_folders := user_context.accessible_folders
  let detected_department := intent_analysis.detected_department
  let confidence := intent_analysis.confidence
  let folders := strategy_folders user_context intent_analysis
  { primary_folders := folders.1
    secondary_folders := folders.2
    search_filters := build_search_filters (folders.1 ++ folders.2)
    max_results := calculate_max_results query confidence
    relevance_threshold := calculate_relevance_threshold confidence
    detected_department := detected_department
    has_permission :=
      if optStrTruthy detected_department then
        accessible_folders.contains (detected_department.getD "")
      else true }

/-- Embedding of retrieval_strategy_chain.py _create_fallback_strategy. -/
def create_fallback_strategy (user_context : UserContext) : RetrievalStrategy :=
  let accessible_folders := user_context.accessible_folders
  { primary_folders := if "公共" ∈ accessible_folders then accessible_folders else []
    secondary_folders := if accessible_folders.length > 1 then accessible_folders.drop 1 else []
    search_filters := if accessible_folders.isEmpty then none else some accessible_folders
    max_results := 5
    relevance_threshold := q0_3
    detected_department := none
    has_permission := true }

/-- Projection facts about determine_strategy's folder fields. -/
theorem determine_strategy_folders (uc : UserContext) (ia : IntentAnalysis) (q : String) :
    (determine_strategy uc ia q).primary_folders = (strategy_folders uc ia).1 ∧
    (determine_strategy uc ia q).secondary_folders = (strategy_folders uc ia).2 :=
  ⟨rfl, rfl⟩

/-- Projection fact about determine_strategy's permission flag. -/
theorem determine_strategy_has_permission (uc : UserContext) (ia : IntentAnalysis) (q : String) :
    (determine_strategy uc ia q).has_permission
      = (if optStrTruthy ia.detected_department then
          uc.accessible_folders.contains (ia.detected_department.getD "") else true) :=
  rfl

/-- Elements of strategy2_primary are accessible when the detected department is. -/
theorem strategy2_primary_subset (uc : UserContext) (ia : IntentAnalysis)
    (h : ia.detected_department.getD "" ∈ uc.accessible_folders) :
    strategy2_primary uc ia ⊆ uc.accessible_folders := by
  unfold strategy2_primary
  intro x hx
  rcases List.mem_append.1 hx with hx | hx
  · simp only [List.mem_singleton] at hx; subst hx; exact h
  · split at hx
    · rename_i hP
      simp only [List.mem_singleton] at hx; subst hx; exact hP.1
    · cases hx

/-- strategy2_primary never repeats a folder. -/
theorem strategy2_primary_nodup (uc : UserContext) (ia : IntentAnalysis) :
    (strategy2_primary uc ia).Nodup := by
  unfold strategy2_primary
  split_ifs with hP
  · simp only [List.cons_append, List.nil_append, List.nodup_cons, List.mem_singleton,
      List.not_mem_nil, not_false_iff, and_true, List.nodup_nil]
    intro heq
    exact hP.2 (by simp [heq])
  · simp

/-- Both selected folder lists only name folders the caller can read. -/
theorem strategy_folders_subset (uc : UserContext) (ia : IntentAnalysis) :
    (strategy_folders uc ia).1 ++ (strategy_folders uc ia).2 ⊆ uc.accessible_folders := by
  unfold strategy_folders
  split_ifs with h1 h2 h3 h4 h5 h6 h7 h8 h9 h10
  · intro x hx
    rcases List.mem_append.1 hx with hx | hx
    · simp only [List.mem_singleton] at hx; subst hx; exact h2
    · exact List.mem_of_mem_filter hx
  · intro x hx
    simp only [List.append_nil, List.mem_singleton] at hx; subst hx; exact h3
  · simp
  · intro x hx
    rcases List.mem_append.1 hx with hx | hx
    · exact strategy2_primary_subset uc ia h5 hx
    · exact List.mem_of_mem_filter hx
  · intro x hx
    simp only [List.append_nil, List.mem_singleton] at hx; subst hx; exact h6
  · simp
  · intro x hx
    rcases List.mem_append.1 hx with hx | hx
    · simp only [List.mem_singleton] at hx; subst hx; exact h7.1
    · exact List.mem_of_mem_filter hx
  · intro x hx
    rcases List.mem_append.1 hx with hx | hx
    · exact List.take_subset _ _ hx
    · exact List.drop_subset _ _ hx
  · intro x hx
    simp only [List.append_nil] at hx
    exact List.take_subset _ _ hx
  · intro x hx
    rcases List.mem_append.1 hx with hx | hx
    · exact hx
    · exact List.drop_subset _ _ hx
  · intro x hx
    simp only [List.append_nil] at hx
    exact hx

/-- With duplicate-free accessible folders, the two selected lists are
jointly duplicate-free (so no folder appears in both). -/
theorem strategy_folders_nodup (uc : UserContext) (ia : IntentAnalysis)
    (hnd : uc.accessible_folders.Nodup) :
    ((strategy_folders uc ia).1 ++ (strategy_folders uc ia).2).Nodup := by
  unfold strategy_folders
  split_ifs with h1 h2 h3 h4 h5 h6 h7 h8 h9 h10
  · refine List.Nodup.append (by simp) (hnd.filter _) ?_
    intro a ha hb
    simp only [List.mem_singleton] at ha
    subst ha
    have hpred := List.of_mem_filter hb
    simp at hpred
  · simp
  · simp
  · refine List.Nodup.append (strategy2_primary_nodup uc ia) (hnd.filter _) ?_
    intro a ha hb
    have hpred := List.of_mem_filter hb
    simp only [Bool.not_eq_true', List.contains_eq_any_beq] at hpred
    simp [List.any_eq_true] at hpred
    exact hpred a ha rfl
  · simp
  · simp
  · refine List.Nodup.append (by simp) (hnd.filter _) ?_
    intro a ha hb
    simp only [List.mem_singleton] at ha
    subst ha
    have hpred := List.of_mem_filter hb
    simp at hpred
  · rw [List.take_append_drop]
    exact hnd
  · simp only [List.append_nil]
    exact hnd.sublist (List.take_sublist 2 _)
  · omega
  · simp only [List.append_nil]
    exact hnd

/-- C2 (amended): for every user context with duplicate-free accessible
folders, the planner's primary and secondary folders are jointly a subset of
the accessible folders with no duplicates across or within the two lists,
and the fallback strategy's folders are also a subset of the accessible
folders (the fallback may however repeat a folder across its two lists). -/
theorem c2_strategy_scope_invariant (uc : UserContext) (ia : IntentAnalysis) (q : String)
    (hnd : uc.accessible_folders.Nodup) :
    ((determine_strategy uc ia q).primary_folders ++ (determine_strategy uc ia q).secondary_folders
        ⊆ uc.accessible_folders) ∧
    ((determine_strategy uc ia q).primary_folders
        ++ (determine_strategy uc ia q).secondary_folders).Nodup ∧
    ((create_fallback_strategy uc).primary_folders ++ (create_fallback_strategy uc).secondary_folders
        ⊆ uc.accessible_folders) := by
  refine ⟨?_, ?_, ?_⟩
  · rw [(determine_strategy_folders uc ia q).1, (determine_strategy_folders uc ia q).2]
    exact strategy_folders_subset uc ia
  · rw [(determine_strategy_folders uc ia q).1, (determine_strategy_folders uc ia q).2]
    exact strategy_folders_nodup uc ia hnd
  · simp only [create_fallback_strategy]
    split_ifs with hpub hlen hlen2
    · intro x hx
      rcases List.mem_append.1 hx with hx | hx
      · exact hx
      · exact List.drop_subset _ _ hx
    · intro x hx
      simp only [List.append_nil] at hx
      exact hx
    · intro x hx
      rcases List.mem_append.1 hx with hx | hx
      · cases hx
      · exact List.drop_subset _ _ hx
    · simp

/-- Concrete user who can read 公共 and 人事. -/
def uc_pub_hr : UserContext :=
  { user_id := "u1", username := "张三", department := "人事", department_id := "d1",
    role := UserRole.employee, accessible_folders := ["公共", "人事"], can_upload := false }

/-- Concrete user from 技术 who cannot read 人事. -/
def uc_tech : UserContext :=
  { user_id := "u2", username := "李四", department := "技术", department_id := "d2",
    role := UserRole.employee, accessible_folders := ["公共", "技术"], can_upload := false }

/-- Concrete high-confidence intent targeting 人事. -/
def ia_hr_high : IntentAnalysis :=
  { primary_intent := "人事", confidence := q0_9, keywords := ["婚假"],
    domain_scores := [("人事", q0_9)], detected_department := some "人事" }

/-- C2 counterexample: for a duplicate-free accessible list containing 公共
and one department, the fallback strategy lists 人事 in both primary and
secondary folders, so the two lists are not duplicate-free as claimed. -/
theorem c2_fallback_duplicates_counterexample :
    uc_pub_hr.accessible_folders.Nodup ∧
    (create_fallback_strategy uc_pub_hr).primary_folders = ["公共", "人事"] ∧
    (create_fallback_strategy uc_pub_hr).secondary_folders = ["人事"] ∧
    ¬ ((create_fallback_strategy uc_pub_hr).primary_folders
        ++ (create_fallback_strategy uc_pub_hr).secondary_folders).Nodup := by
  decide

/-- Witness: the C2 invariant applied to a concrete user and intent. -/
theorem c2_strategy_scope_invariant_witness :
    uc_tech.accessible_folders.Nodup ∧
    (((determine_strategy uc_tech ia_hr_high "如何请婚假").primary_folders
        ++ (determine_strategy uc_tech ia_hr_high "如何请婚假").secondary_folders
        ⊆ uc_tech.accessible_folders) ∧
     ((determine_strategy uc_tech ia_hr_high "如何请婚假").primary_folders
        ++ (determine_strategy uc_tech ia_hr_high "如何请婚假").secondary_folders).Nodup ∧
     ((create_fallback_strategy uc_tech).primary_folders
        ++ (create_fallback_strategy uc_tech).secondary_folders ⊆ uc_tech.accessible_folders)) :=
  ⟨by decide, c2_strategy_scope_invariant uc_tech ia_hr_high "如何请婚假" (by decide)⟩

/-- C5 (amended): the fallback strategy substitutes max_results 5 and
threshold 0.3, but its primary folders are the caller's whole accessible
list when it contains 公共 (not just the 公共 folder), and its secondary
folders are the accessible list without its first element when there is
more than one (not the empty list). -/
theorem c5_fallback_characterization (uc : UserContext) :
    create_fallback_strategy uc =
      { primary_folders :=
          if "公共" ∈ uc.accessible_folders then uc.accessible_folders else []
        secondary_folders :=
          if uc.accessible_folders.length > 1 then uc.accessible_folders.drop 1 else []
        search_filters :=
          if uc.accessible_folders.isEmpty then none else some uc.accessible_folders
        max_results := 5
        relevance_threshold := q0_3
        detected_department := none
        has_permission := true } := rfl

/-- C5 counterexample: for the caller reading 公共 and 人事, the fallback
primary list is the whole accessible list and the secondary list is
non-empty, contradicting the claimed default of primary = [公共] and
secondary = []. -/
theorem c5_fallback_not_public_only_counterexample :
    "公共" ∈ uc_pub_hr.accessible_folders ∧
    (create_fallback_strategy uc_pub_hr).primary_folders = ["公共", "人事"] ∧
    (create_fallback_strategy uc_pub_hr).primary_folders ≠ ["公共"] ∧
    (create_fallback_strategy uc_pub_hr).secondary_folders ≠ ([] : List String) ∧
    (create_fallback_strategy uc_pub_hr).max_results = 5 ∧
    (create_fallback_strategy uc_pub_hr).relevance_threshold = q0_3 := by
  decide

/-- C6: with a truthy detected department and confidence above 0.7, a
permitted caller gets primary = [detected] and secondary = the permitted
folders without the detected one; an unpermitted caller gets primary =
[公共] when 公共 is permitted (otherwise nothing) and empty secondary. -/
theorem c6_high_confidence_strategy (uc : UserContext) (ia : IntentAnalysis) (q : String)
    (d : String) (hd : ia.detected_department = some d) (hne : d ≠ "")
    (hconf : q0_7 < ia.confidence) :
    (d ∈ uc.accessible_folders →
        (determine_strategy uc ia q).primary_folders = [d] ∧
        (determine_strategy uc ia q).secondary_folders
          = uc.accessible_folders.filter (fun f => f != d)) ∧
    (d ∉ uc.accessible_folders →
        (determine_strategy uc ia q).primary_folders
          = (if "公共" ∈ uc.accessible_folders then ["公共"] else []) ∧
        (determine_strategy uc ia q).secondary_folders = []) := by
  have ht : optStrTruthy ia.detected_department = true := by
    rw [hd]; simp [optStrTruthy, hne]
  rw [(determine_strategy_folders uc ia q).1, (determine_strategy_folders uc ia q).2]
  constructor
  · intro hmem
    unfold strategy_folders
    rw [if_pos ⟨ht, hconf⟩, if_pos (by rw [hd]; exact hmem)]
    rw [hd]
    exact ⟨rfl, rfl⟩
  · intro hmem
    unfold strategy_folders
    rw [if_pos ⟨ht, hconf⟩, if_neg (by rw [hd]; exact hmem)]
    exact ⟨rfl, rfl⟩

/-- Witness: the C6 cases evaluated for the 人事 intent against a caller
who can read 人事 (first case applies with a concrete membership). -/
theorem c6_high_confidence_strategy_witness :
    ("人事" ∈ uc_pub_hr.accessible_folders →
        (determine_strategy uc_pub_hr ia_hr_high "如何请婚假").primary_folders = ["人事"] ∧
        (determine_strategy uc_pub_hr ia_hr_high "如何请婚假").secondary_folders
          = uc_pub_hr.accessible_folders.filter (fun f => f != "人事")) ∧
    ("人事" ∉ uc_pub_hr.accessible_folders →
        (determine_strategy uc_pub_hr ia_hr_high "如何请婚假").primary_folders
          = (if "公共" ∈ uc_pub_hr.accessible_folders then ["公共"] else []) ∧
        (determine_strategy uc_pub_hr ia_hr_high "如何请婚假").secondary_folders = []) :=
  c6_high_confidence_strategy uc_pub_hr ia_hr_high "如何请婚假" "人事" rfl
    (by decide) (by decide)

/-- Metadata of a retrieved LangChain document as read by
document_retrieval_chain.py; absent dictionary keys are none. -/
structure DocMetadata where
  score : Option ℚ := none
  department : Option String := none
  title : Option String := none
deriving DecidableEq, Repr

/-- A document flowing through _filter_and_rank_documents: page content,
its metadata dict and, when set, the python attribute named score (the
documents produced by knowledge_base.search_documents never set the
attribute and carry the score only in metadata). -/
structure Document where
  page_content : String
  metadata : DocMetadata
  attr_score : Option ℚ := none
deriving DecidableEq, Repr

/-- Score used by the relevance filter of _filter_and_rank_documents:
getattr(doc, 'score', None), falling back to metadata.get('score', 0.0). -/
def doc_filter_score (doc : Document) : ℚ :=
  match doc.attr_score with
  | some s => s
  | none => doc.metadata.score.getD 0

/-- Sort key used at the ranking step of _filter_and_rank_documents:
getattr(x, 'score', 0.0) with no metadata fallback. -/
def doc_sort_key (doc : Document) : ℚ := doc.attr_score.getD 0

/-- Embedding of document_retrieval_chain.py _check_document_permission:
the document's department (defaulting to 公共 when the metadata key is
absent) must be in the caller's accessible folders. -/
def check_document_permission (doc : Document) (user_context : UserContext) : Bool :=
  user_context.accessible_folders.contains (doc.metadata.department.getD "公共")

/-- Embedding of document_retrieval_chain.py _filter_and_rank_documents:
relevance filter, permission filter, stable descending sort by the
attribute score, truncation to max_results. -/
def filter_and_rank_documents (documents : List Document) (strategy : RetrievalStrategy)
    (user_context : UserContext) : List Document :=
  if documents.isEmpty then []
  else
    ((pySortDescBy doc_sort_key
        ((documents.filter (fun doc => strategy.relevance_threshold ≤ doc_filter_score doc)).filter
          (fun doc => check_document_permission doc user_context))).take
      strategy.max_results)

/-- Document whose metadata carries score 0.5 and no attribute score. -/
def doc_meta_half : Document :=
  { page_content := "考勤细则全文",
    metadata := { score := some q0_5, department := some "公共", title := some "考勤细则" } }

/-- Document whose metadata carries score 0.9 and no attribute score. -/
def doc_meta_nine : Document :=
  { page_content := "年假规定全文",
    metadata := { score := some q0_9, department := some "公共", title := some "年假规定" } }

/-- Strategy fixture used for the ranking counterexample. -/
def strategy_rank_fixture : RetrievalStrategy :=
  { primary_folders := ["公共"], secondary_folders := [], search_filters := some ["公共"],
    max_results := 5, relevance_threshold := q0_3 }

/-- Caller fixture who can read only 公共. -/
def uc_public_only : UserContext :=
  { user_id := "u0", username := "匿名用户", department := "公共", department_id := "",
    role := UserRole.employee, accessible_folders := ["公共"], can_upload := false }

/-- C1 (code bug): on documents whose scores live only in metadata, as
knowledge_base.search_documents produces them, both documents pass the
relevance and permission passes, but the ranking step sorts by the missing
attribute score (0.0 for both), so the lower-scored document stays first
and the output is not in descending order of relevance score. -/
theorem c1_sort_key_ignores_metadata_score :
    filter_and_rank_documents [doc_meta_half, doc_meta_nine] strategy_rank_fixture uc_public_only
        = [doc_meta_half, doc_meta_nine] ∧
    doc_filter_score doc_meta_half < doc_filter_score doc_meta_nine ∧
    strategy_rank_fixture.relevance_threshold ≤ doc_filter_score doc_meta_half ∧
    check_document_permission doc_meta_half uc_public_only = true ∧
    check_document_permission doc_meta_nine uc_public_only = true := by
  decide

/-- A document as returned by the vector store and the BM25 retriever in
hybrid_retriever.py; document_id is the stable identifier from metadata. -/
structure LCDocument where
  page_content : String
  document_id : String
  department : String := ""
  title : String := ""
deriving DecidableEq, Repr

/-- Key under which HybridRetriever.search_with_score deduplicates: the
python hash of the first 100 characters of page content, modelled by the
100-character prefix itself (the source relies on hash equality meaning
content-prefix equality). -/
def content_key (doc : LCDocument) : List Char := doc.page_content.toList.take 100

/-- Deduplication loop of HybridRetriever.search_with_score over the
content keys (python slices strings by code points, hence List Char). -/
def dedup_by_content (seen : List (List Char)) :
    List (LCDocument × ℚ) → List (LCDocument × ℚ)
  | [] => []
  | (doc, score) :: rest =>
    if content_key doc ∈ seen then dedup_by_content seen rest
    else (doc, score) :: dedup_by_content (content_key doc :: seen) rest

/-- Embedding of HybridRetriever.search_with_score on the backend results:
vector results keep their scores, BM25 documents (present only when the
BM25 retriever is initialised) each get the flat score 0.5, the two lists
are concatenated, deduplicated by content prefix, sorted descending by
score and truncated to k. The configured vector/BM25 weights are not used
on this path. -/
def search_with_score (vector_results : List (LCDocument × ℚ))
    (bm25_docs : Option (List LCDocument)) (k : Nat) : List (LCDocument × ℚ) :=
  let bm25_results : List (LCDocument × ℚ) :=
    match bm25_docs with
    | some docs => docs.map (fun doc => (doc, q0_5))
    | none => []
  (pySortDescBy (fun p => p.2) (dedup_by_content [] (vector_results ++ bm25_results))).take k

/-- Every output of the dedup loop comes from its input. -/
theorem dedup_by_content_subset (seen : List (List Char)) (l : List (LCDocument × ℚ)) :
    ∀ p ∈ dedup_by_content seen l, p ∈ l := by
  induction l generalizing seen with
  | nil => intro p hp; cases hp
  | cons x rest ih =>
    intro p hp
    obtain ⟨doc, score⟩ := x
    unfold dedup_by_content at hp
    split at hp
    · exact List.mem_cons_of_mem _ (ih seen p hp)
    · rcases List.mem_cons.1 hp with hp | hp
      · exact hp ▸ List.mem_cons_self _ _
      · exact List.mem_cons_of_mem _ (ih _ p hp)

/-- The dedup loop emits pairwise distinct content prefixes, none of them
already seen. -/
theorem dedup_by_content_nodup (seen : List (List Char)) (l : List (LCDocument × ℚ)) :
    ((dedup_by_content seen l).map (fun p => content_key p.1)).Nodup ∧
    ∀ h ∈ (dedup_by_content seen l).map (fun p => content_key p.1), h ∉ seen := by
  induction l generalizing seen with
  | nil => exact ⟨List.nodup_nil, by intro h hh; cases hh⟩
  | cons x rest ih =>
    obtain ⟨doc, score⟩ := x
    unfold dedup_by_content
    split
    · exact ih seen
    · rename_i hnotseen
      obtain ⟨ih1, ih2⟩ := ih (content_key doc :: seen)
      constructor
      · simp only [List.map_cons, List.nodup_cons]
        refine ⟨fun hmem => ?_, ih1⟩
        exact ih2 _ hmem (List.mem_cons_self _ _)
      · intro h hh hseen
        simp only [List.map_cons, List.mem_cons] at hh
        rcases hh with hh | hh
        · exact hnotseen (hh ▸ hseen)
        · exact ih2 h hh (List.mem_cons_of_mem _ hseen)

/-- Unfolding equation for search_with_score when BM25 is enabled. -/
theorem search_with_score_eq (vector_results : List (LCDocument × ℚ))
    (bm25_docs : List LCDocument) (k : Nat) :
    search_with_score vector_results (some bm25_docs) k
      = (pySortDescBy (fun p => p.2)
          (dedup_by_content []
            (vector_results ++ bm25_docs.map (fun doc => (doc, q0_5))))).take k := rfl

/-- C9 (amended): with both backends enabled, every returned pair is either
a vector result with its original score or a BM25 document with the flat
score 0.5 (no weighted combination is applied), the returned documents have
pairwise distinct 100-character content prefixes (deduplication is by
content prefix, not by document identity), and the output is sorted by
descending score and truncated to k. -/
theorem c9_search_with_score_properties (vector_results : List (LCDocument × ℚ))
    (bm25_docs : List LCDocument) (k : Nat) :
    (∀ p ∈ search_with_score vector_results (some bm25_docs) k,
        p ∈ vector_results ∨ (p.2 = q0_5 ∧ p.1 ∈ bm25_docs)) ∧
    ((search_with_score vector_results (some bm25_docs) k).map
        (fun p => content_key p.1)).Nodup ∧
    (search_with_score vector_results (some bm25_docs) k).Sorted
        (fun a b => b.2 ≤ a.2) ∧
    (search_with_score vector_results (some bm25_docs) k).length ≤ k := by
  rw [search_with_score_eq]
  refine ⟨?_, ?_, ?_, ?_⟩
  · intro p hp
    have hp2 := (pySortDescBy_perm (fun p : LCDocument × ℚ => p.2) _).mem_iff.1
      (List.mem_of_mem_take hp)
    have hp3 := dedup_by_content_subset [] _ p hp2
    rcases List.mem_append.1 hp3 with h | h
    · exact Or.inl h
    · right
      obtain ⟨doc, hdoc, hEq⟩ := List.mem_map.1 h
      rw [← hEq]
      exact ⟨rfl, hdoc⟩
  · rw [List.map_take]
    have hperm : ((pySortDescBy (fun p : LCDocument × ℚ => p.2)
          (dedup_by_content [] (vector_results ++ bm25_docs.map (fun doc => (doc, q0_5))))).map
            (fun p => content_key p.1)).Perm
        ((dedup_by_content [] (vector_results ++ bm25_docs.map (fun doc => (doc, q0_5)))).map
            (fun p => content_key p.1)) :=
      (pySortDescBy_perm _ _).map _
    have hnd := (hperm.nodup_iff).2 (dedup_by_content_nodup [] _).1
    exact hnd.sublist (List.take_sublist _ _)
  · have hs := pySortDescBy_sorted (fun p : LCDocument × ℚ => p.2)
      (dedup_by_content [] (vector_results ++ bm25_docs.map (fun doc => (doc, q0_5))))
    exact List.Pairwise.sublist (List.take_sublist _ _) hs
  · exact List.length_take_le _ _

/-- Vector-side document fixture. -/
def hybrid_doc_a : LCDocument := { page_content := "休假政策全文", document_id := "doc-1" }

/-- BM25-side document with the same content but a different identity. -/
def hybrid_doc_b : LCDocument := { page_content := "休假政策全文", document_id := "doc-2" }

/-- BM25-side document with distinct content. -/
def hybrid_doc_c : LCDocument := { page_content := "报销流程说明", document_id := "doc-3" }

/-- C9 counterexample: two documents with different identities but equal
content are merged (the BM25 copy disappears), and the surviving BM25
document carries the flat score 0.5 instead of any weighted combination,
so fusion is neither weighted nor deduplicated by document identity. -/
theorem c9_dedup_not_by_identity_counterexample :
    hybrid_doc_a.document_id ≠ hybrid_doc_b.document_id ∧
    search_with_score [(hybrid_doc_a, q0_9)] (some [hybrid_doc_b, hybrid_doc_c]) 5
      = [(hybrid_doc_a, q0_9), (hybrid_doc_c, q0_5)] ∧
    ¬ hybrid_doc_b ∈ (search_with_score [(hybrid_doc_a, q0_9)]
        (some [hybrid_doc_b, hybrid_doc_c]) 5).map (fun p => p.1) := by
  decide

namespace Schemas

/-- Request-side user context of schemas.py (UserContext): department, the
role code string, and the user id. The role is kept as the raw string the
stream filter compares against "super_admin". -/
structure UserContext where
  department : String
  user_role : String
  user_id : String
deriving DecidableEq, Repr

end Schemas

/-- Document result of langchain_chains/models.py (DocumentResult): fields
extracted from a retrieved document; the raw metadata dict is dropped as no
modelled path reads it beyond these fields. -/
structure DocumentResult where
  content : String
  score : ℚ
  document_id : String
  title : String
  department : String
deriving DecidableEq, Repr

/-- Python str.lower(), modelled character-wise on code points. -/
def pyLowerChars (cs : List Char) : List Char := cs.map Char.toLower

/-- Containment of a character sequence in another, by code points. -/
def charsContain (needle : List Char) : List Char → Bool
  | [] => needle.isEmpty
  | c :: t => needle.isPrefixOf (c :: t) || charsContain needle t

/-- Python substring test needle in hay. -/
def strContains (hay needle : String) : Bool := charsContain needle.toList hay.toList

/-- Python substring test needle.lower() in hay.lower(). -/
def strContainsLower (hay needle : String) : Bool :=
  charsContain (pyLowerChars needle.toList) (pyLowerChars hay.toList)

/-- Embedding of services.py _filter_relevant_documents_for_stream: super
admins skip the filter, a missing intent analysis returns everything, a
falsy or "null" detected department, a generic department name or a
confidence below 0.3 drops everything, and otherwise a document survives
when its department matches, its title contains the detected department, or
its lowercased title contains a lowercased keyword. The retrieval_strategy
parameter is accepted and ignored exactly as in the source. -/
def filter_relevant_documents_for_stream (documents : List DocumentResult)
    (intent_analysis : Option IntentAnalysis) (retrieval_strategy : Option RetrievalStrategy)
    (user_ctx : Option Schemas.UserContext) : List DocumentResult :=
  if (user_ctx.map (fun u => u.user_role == "super_admin")).getD false then documents
  else
    match intent_analysis with
    | none => documents
    | some ia =>
      if ¬ optStrTruthy ia.detected_department ∨ ia.detected_department = some "null" then []
      else if pyLowerChars (ia.detected_department.getD "").toList
          ∈ ["通用".toList, "其他".toList, "general".toList, "other".toList, "公共".toList] then []
      else if ia.confidence < q0_3 then []
      else
        documents.filter (fun doc =>
          doc.department == ia.detected_department.getD ""
          || strContains doc.title (ia.detected_department.getD "")
          || (!ia.keywords.isEmpty
              && ia.keywords.any (fun kw => strContainsLower doc.title kw)))

/-- Python round(x, 3): round half to even at the third decimal. The source
rounds a binary float; the model rounds the exact rational. -/
def pyRound3 (x : ℚ) : ℚ :=
  let y := x * 1000
  let f : ℤ := ⌊y⌋
  let r := y - f
  (if q0_5 < r then (f + 1 : ℚ)
   else if r < q0_5 then (f : ℚ)
   else if f % 2 = 0 then (f : ℚ) else (f + 1 : ℚ)) / 1000

/-- Embedding of intelligent_router.py _calculate_document_confidence. -/
def calculate_document_confidence (documents : List DocumentResult) : ℚ :=
  if documents.isEmpty then 0
  else
    pyRound3 (((documents.map (fun d => d.score)).sum / (documents.length : ℚ)) * q0_7
      + (min ((documents.length : ℚ) / 5) 1) * q0_3)

/-- Query result of langchain_chains/models.py (QueryResult) as assembled
by intelligent_router.py _build_query_result. -/
structure QueryResult where
  answer : String
  user_context : UserContext
  intent_analysis : IntentAnalysis
  retrieval_strategy : RetrievalStrategy
  documents : List DocumentResult
  confidence : ℚ
  source_type : String

/-- Embedding of intelligent_router.py _build_query_result: non-empty
documents give source_type document_based with a document-derived
confidence, empty documents give general_knowledge with confidence 0.6. -/
def build_query_result (user_context : UserContext) (intent_analysis : IntentAnalysis)
    (retrieval_strategy : RetrievalStrategy) (documents : List DocumentResult) : QueryResult :=
  { answer := ""
    user_context := user_context
    intent_analysis := intent_analysis
    retrieval_strategy := retrieval_strategy
    documents := documents
    confidence := if documents.isEmpty then q0_6 else calculate_document_confidence documents
    source_type := if documents.isEmpty then "general_knowledge" else "document_based" }

/-- Terminal response modes of the streaming answer path. -/
inductive StreamMode where
  | grounded : StreamMode
  | general_knowledge : StreamMode
  | permission_denied : StreamMode
deriving DecidableEq, Repr

/-- Embedding of the answer-mode decision of services.py
service_query_knowledge_stream (lines 948-1042): on a document_based result
with documents, the stream filter runs; if nothing survives and the intent
has a truthy detected department while the strategy records no permission,
the deterministic permission-denied template is emitted with no documents;
if nothing survives otherwise, general knowledge with no documents; if
documents survive, grounded generation over exactly those documents. Any
other result goes to general knowledge. The python truthiness test on the
strategy object is constantly true here since a strategy is always present. -/
def stream_answer_decision (query_result : QueryResult) (user_ctx : Schemas.UserContext) :
    StreamMode × List DocumentResult :=
  if query_result.source_type == "document_based" && !query_result.documents.isEmpty then
    if (filter_relevant_documents_for_stream query_result.documents
        (some query_result.intent_analysis) (some query_result.retrieval_strategy)
        (some user_ctx)).isEmpty then
      if optStrTruthy query_result.intent_analysis.detected_department
          && !query_result.retrieval_strategy.has_permission then
        (StreamMode.permission_denied, [])
      else
        (StreamMode.general_knowledge, [])
    else
      (StreamMode.grounded,
       filter_relevant_documents_for_stream query_result.documents
         (some query_result.intent_analysis) (some query_result.retrieval_strategy)
         (some user_ctx))
  else
    (StreamMode.general_knowledge, [])

/-- Helper: list containment as membership for strings. -/
theorem string_contains_iff (l : List String) (a : String) :
    l.contains a = true ↔ a ∈ l := by
  simp [List.contains_eq_any_beq, List.any_eq_true]

/-- Stream-side request context of the 技术 caller. -/
def sctx_tech : Schemas.UserContext :=
  { department := "技术", user_role := "employee", user_id := "u2" }

/-- Stream-side request context of a super admin. -/
def sctx_super : Schemas.UserContext :=
  { department := "人事", user_role := "super_admin", user_id := "u3" }

/-- A 公共 document whose title matches neither the detected department
nor the keywords of ia_hr_high. -/
def docres_public : DocumentResult :=
  { content := "全员考勤说明", score := q0_5, document_id := "doc-p1",
    title := "考勤管理规定", department := "公共" }

/-- A 人事 document above every configured threshold. -/
def docres_hr : DocumentResult :=
  { content := "婚假规定内容", score := q0_9, document_id := "doc-h1",
    title := "婚假规定", department := "人事" }

/-- Null-intent analysis (no company-specific intent, confidence 0). -/
def ia_null : IntentAnalysis :=
  { primary_intent := "general", confidence := 0, keywords := [], domain_scores := [],
    detected_department := none }

/-- C3 counterexample: high confidence on 人事, caller cannot read 人事, the
strategy is restricted to 公共 with has_permission false, and the public
search returns no document at all; the streaming path answers in general
knowledge mode, not permission denied. -/
theorem c3_empty_retrieval_general_counterexample :
    (determine_strategy uc_tech ia_hr_high "如何请婚假").has_permission = false ∧
    (determine_strategy uc_tech ia_hr_high "如何请婚假").primary_folders = ["公共"] ∧
    (determine_strategy uc_tech ia_hr_high "如何请婚假").secondary_folders = [] ∧
    stream_answer_decision
        (build_query_result uc_tech ia_hr_high
          (determine_strategy uc_tech ia_hr_high "如何请婚假") []) sctx_tech
      = (StreamMode.general_knowledge, []) := by
  decide

/-- C3 (amended): with a truthy detected department, confidence above 0.7
and no permission for it, when the search returned candidates but the
stream-side relevance filter drops them all, the streaming path answers
with the deterministic permission-denied template and no documents. -/
theorem c3_permission_denied_after_filter (uc : UserContext) (ia : IntentAnalysis)
    (q : String) (docs : List DocumentResult) (sctx : Schemas.UserContext) (d : String)
    (hd : ia.detected_department = some d) (hne : d ≠ "")
    (hconf : q0_7 < ia.confidence)
    (hperm : d ∉ uc.accessible_folders)
    (hdocs : docs ≠ [])
    (hfilter : filter_relevant_documents_for_stream docs (some ia)
        (some (determine_strategy uc ia q)) (some sctx) = []) :
    stream_answer_decision (build_query_result uc ia (determine_strategy uc ia q) docs) sctx
      = (StreamMode.permission_denied, []) := by
  have hp : (determine_strategy uc ia q).has_permission = false := by
    rw [determine_strategy_has_permission, hd]
    simp only [optStrTruthy, Option.getD_some]
    rw [if_pos (by simp [hne])]
    rw [← Bool.not_eq_true, string_contains_iff]
    exact hperm
  obtain ⟨x, xs, rfl⟩ := List.exists_cons_of_ne_nil hdocs
  simp [stream_answer_decision, build_query_result, hfilter, hp, hd, optStrTruthy, hne]

/-- Witness: the amended C3 at a concrete caller, intent and public
document that fails the stream filter. -/
theorem c3_permission_denied_after_filter_witness :
    stream_answer_decision
        (build_query_result uc_tech ia_hr_high
          (determine_strategy uc_tech ia_hr_high "如何请婚假") [docres_public]) sctx_tech
      = (StreamMode.permission_denied, []) :=
  c3_permission_denied_after_filter uc_tech ia_hr_high "如何请婚假" [docres_public] sctx_tech
    "人事" rfl (by decide) (by decide) (by decide) (by decide) (by decide)

/-- C4 counterexample: a super admin caller with a null detected department
and a retrieved document gets a grounded answer over that document, so
null-scope queries do not always bypass grounding. -/
theorem c4_super_admin_grounded_counterexample :
    ia_null.detected_department = none ∧
    sctx_super.user_role = "super_admin" ∧
    stream_answer_decision
        (build_query_result uc_pub_hr ia_null (create_fallback_strategy uc_pub_hr) [docres_hr])
        sctx_super
      = (StreamMode.grounded, [docres_hr]) := by
  decide

/-- C4 (amended): for every caller whose role is not super_admin, a null
detected department sends the streaming answer to general-knowledge mode
with no grounding documents, whatever documents were retrieved. -/
theorem c4_null_scope_general_knowledge (uc : UserContext) (ia : IntentAnalysis)
    (strategy : RetrievalStrategy) (docs : List DocumentResult) (sctx : Schemas.UserContext)
    (hrole : sctx.user_role ≠ "super_admin")
    (hnull : ia.detected_department = none) :
    stream_answer_decision (build_query_result uc ia strategy docs) sctx
      = (StreamMode.general_knowledge, []) := by
  cases docs with
  | nil => simp [stream_answer_decision, build_query_result]
  | cons x xs =>
    have hfilter : filter_relevant_documents_for_stream (x :: xs) (some ia) (some strategy)
        (some sctx) = [] := by
      unfold filter_relevant_documents_for_stream
      rw [if_neg (by simp [hrole])]
      simp [hnull, optStrTruthy]
    simp [stream_answer_decision, build_query_result, hfilter, hnull, optStrTruthy]

/-- Witness: the amended C4 at a concrete non-admin caller with a retrieved
document above every threshold. -/
theorem c4_null_scope_general_knowledge_witness :
    stream_answer_decision
        (build_query_result uc_pub_hr ia_null (create_fallback_strategy uc_pub_hr) [docres_hr])
        sctx_tech
      = (StreamMode.general_knowledge, []) :=
  c4_null_scope_general_knowledge uc_pub_hr ia_null (create_fallback_strategy uc_pub_hr)
    [docres_hr] sctx_tech (by decide) rfl

/-- C10: a super_admin caller bypasses the stream relevance filter (it
returns the documents unchanged whatever the intent analysis says) and,
whenever documents were retrieved, the streaming answer is grounded on all
of them. -/
theorem c10_super_admin_skips_filter (uc : UserContext) (ia : IntentAnalysis)
    (strategy : RetrievalStrategy) (docs : List DocumentResult) (sctx : Schemas.UserContext)
    (hrole : sctx.user_role = "super_admin") (hdocs : docs ≠ []) :
    filter_relevant_documents_for_stream docs (some ia) (some strategy) (some sctx) = docs ∧
    stream_answer_decision (build_query_result uc ia strategy docs) sctx
      = (StreamMode.grounded, docs) := by
  have hfilter : filter_relevant_documents_for_stream docs (some ia) (some strategy)
      (some sctx) = docs := by
    unfold filter_relevant_documents_for_stream
    simp [hrole]
  refine ⟨hfilter, ?_⟩
  obtain ⟨x, xs, rfl⟩ := List.exists_cons_of_ne_nil hdocs
  simp [stream_answer_decision, build_query_result, hfilter]

/-- Witness: the C10 bypass at a concrete super admin, null intent and one
document whose title matches nothing. -/
theorem c10_super_admin_skips_filter_witness :
    filter_relevant_documents_for_stream [docres_public] (some ia_null)
        (some (create_fallback_strategy uc_pub_hr)) (some sctx_super) = [docres_public] ∧
    stream_answer_decision
        (build_query_result uc_pub_hr ia_null (create_fallback_strategy uc_pub_hr)
          [docres_public]) sctx_super
      = (StreamMode.grounded, [docres_public]) :=
  c10_super_admin_skips_filter uc_pub_hr ia_null (create_fallback_strategy uc_pub_hr)
    [docres_public] sctx_super rfl (by decide)

/-- Conversation messages of chat_history_manager.py (HumanMessage and
AIMessage). -/
inductive Message where
  | human : String → Message
  | ai : String → Message
deriving DecidableEq, Repr

/-- Embedding of ChatHistoryManager._trim_history on one session's message
list: when the list exceeds max_messages, keep messages[-max_messages:].
Python's slice [-0:] is the whole list, hence the max_messages = 0 case. -/
def trim_messages (max_messages : Nat) (messages : List Message) : List Message :=
  if messages.length > max_messages then
    if max_messages = 0 then messages
    else messages.drop (messages.length - max_messages)
  else messages

/-- State of chat_history_manager.py ChatHistoryManager: the cap and the
per-session histories dict as an association list. -/
structure ChatHistoryManager where
  max_messages : Nat
  histories : List (String × List Message)

/-- Embedding of ChatHistoryManager.get_history (the creation side effect
for a missing session only installs an empty history, so reading with an
empty default is equivalent for the modelled operations). -/
def get_history (mgr : ChatHistoryManager) (session_id : String) : List Message :=
  (mgr.histories.lookup session_id).getD []

/-- Replace or append one session's binding. -/
def upsert_history : List (String × List Message) → String → List Message →
    List (String × List Message)
  | [], session_id, msgs => [(session_id, msgs)]
  | (k, v) :: rest, session_id, msgs =>
    if k == session_id then (k, msgs) :: rest
    else (k, v) :: upsert_history rest session_id msgs

/-- Embedding of ChatHistoryManager.add_user_message: append then trim. -/
def add_user_message (mgr : ChatHistoryManager) (session_id : String) (text : String) :
    ChatHistoryManager :=
  let new_history :=
    trim_messages mgr.max_messages (get_history mgr session_id ++ [Message.human text])
  { mgr with histories := upsert_history mgr.histories session_id new_history }

/-- Embedding of ChatHistoryManager.add_ai_message: append then trim. -/
def add_ai_message (mgr : ChatHistoryManager) (session_id : String) (text : String) :
    ChatHistoryManager :=
  let new_history :=
    trim_messages mgr.max_messages (get_history mgr session_id ++ [Message.ai text])
  { mgr with histories := upsert_history mgr.histories session_id new_history }

/-- Dispatch of one append by message role. -/
def add_message (mgr : ChatHistoryManager) (session_id : String) : Message →
    ChatHistoryManager
  | Message.human text => add_user_message mgr session_id text
  | Message.ai text => add_ai_message mgr session_id text

/-- Looking up the session just written returns what was written. -/
theorem lookup_upsert_history (l : List (String × List Message)) (sid : String)
    (msgs : List Message) : (upsert_history l sid msgs).lookup sid = some msgs := by
  induction l with
  | nil => simp [upsert_history, List.lookup]
  | cons kv rest ih =>
    obtain ⟨k, v⟩ := kv
    by_cases hk : k = sid
    · subst hk
      simp [upsert_history, List.lookup]
    · have h1 : (k == sid) = false := beq_eq_false_iff_ne.2 hk
      have h2 : (sid == k) = false := beq_eq_false_iff_ne.2 (Ne.symm hk)
      simp [upsert_history, List.lookup, h1, h2, ih]

/-- One append acts on the session's list as append-then-trim, and keeps
the cap. -/
theorem get_history_add_message (mgr : ChatHistoryManager) (sid : String) (m : Message) :
    get_history (add_message mgr sid m) sid
      = trim_messages mgr.max_messages (get_history mgr sid ++ [m]) ∧
    (add_message mgr sid m).max_messages = mgr.max_messages := by
  cases m with
  | human text =>
    exact ⟨by simp [add_message, add_user_message, get_history, lookup_upsert_history], rfl⟩
  | ai text =>
    exact ⟨by simp [add_message, add_ai_message, get_history, lookup_upsert_history], rfl⟩

/-- Session-level view of a sequence of appends. -/
def fold_trimmed (cap : Nat) (h : List Message) (msgs : List Message) : List Message :=
  msgs.foldl (fun acc m => trim_messages cap (acc ++ [m])) h

/-- A manager-level fold of appends acts per session as fold_trimmed. -/
theorem get_history_fold (mgr : ChatHistoryManager) (sid : String) (msgs : List Message) :
    get_history (msgs.foldl (fun acc m => add_message acc sid m) mgr) sid
      = fold_trimmed mgr.max_messages (get_history mgr sid) msgs := by
  induction msgs generalizing mgr with
  | nil => rfl
  | cons m rest ih =>
    simp only [List.foldl_cons, fold_trimmed]
    rw [ih (add_message mgr sid m)]
    rw [(get_history_add_message mgr sid m).1, (get_history_add_message mgr sid m).2]
    rfl

/-- Dropping from an already-dropped prefix concatenation. -/
theorem drop_append_drop {α : Type} (l r : List α) (a b : Nat) (ha : a ≤ l.length) :
    (l.drop a ++ r).drop b = (l ++ r).drop (a + b) := by
  rw [← List.drop_append_of_le_length ha]
  exact List.drop_drop b a (l ++ r)

/-- Main trimming invariant: starting within the cap, a fold of appends is
the suffix of the full append stream that fits the cap. -/
theorem fold_trimmed_eq (cap : Nat) (hcap : 1 ≤ cap) :
    ∀ (msgs h : List Message), h.length ≤ cap →
      fold_trimmed cap h msgs = (h ++ msgs).drop (h.length + msgs.length - cap) := by
  intro msgs
  induction msgs with
  | nil =>
    intro h hh
    unfold fold_trimmed
    simp only [List.foldl_nil, List.append_nil, List.length_nil, Nat.add_zero]
    have hz : h.length - cap = 0 := by omega
    rw [hz, List.drop_zero]
  | cons m rest ih =>
    intro h hh
    unfold fold_trimmed
    simp only [List.foldl_cons]
    have htrim : trim_messages cap (h ++ [m]) = (h ++ [m]).drop (h.length + 1 - cap) := by
      unfold trim_messages
      by_cases hlen : h.length + 1 > cap
      · rw [if_pos (by simp only [List.length_append, List.length_singleton]; omega),
          if_neg (by omega)]
        congr 1
        simp only [List.length_append, List.length_singleton]
      · rw [if_neg (by simp only [List.length_append, List.length_singleton]; omega)]
        have hz : h.length + 1 - cap = 0 := by omega
        rw [hz, List.drop_zero]
    have hlen2 : (trim_messages cap (h ++ [m])).length ≤ cap := by
      rw [htrim]
      simp only [List.length_drop, List.length_append, List.length_singleton]
      omega
    have hrec := ih (trim_messages cap (h ++ [m])) hlen2
    rw [fold_trimmed] at hrec
    rw [hrec, htrim,
      drop_append_drop (h ++ [m]) rest _ _
        (by simp only [List.length_append, List.length_singleton]; omega)]
    rw [List.append_assoc, List.singleton_append]
    congr 1
    simp only [List.length_drop, List.length_append, List.length_singleton, List.length_cons,
      List.length_nil]
    omega

/-- C8: for a positive cap and any sequence of at least cap appends (user
or assistant) to a fresh session, the stored history is exactly the last
cap appended messages in order: its length is the cap, the dropped entries
are the oldest, and the oldest surviving message is the (N - cap + 1)-th
appended one (index N - cap from zero). -/
theorem c8_history_fifo_bound (cap : Nat) (sid : String) (msgs : List Message)
    (hcap : 1 ≤ cap) (hN : cap ≤ msgs.length) :
    get_history (msgs.foldl (fun acc m => add_message acc sid m)
        { max_messages := cap, histories := [] }) sid
      = msgs.drop (msgs.length - cap) ∧
    (get_history (msgs.foldl (fun acc m => add_message acc sid m)
        { max_messages := cap, histories := [] }) sid).length = cap ∧
    (get_history (msgs.foldl (fun acc m => add_message acc sid m)
        { max_messages := cap, histories := [] }) sid).head?
      = msgs[msgs.length - cap]? := by
  have hmain : get_history (msgs.foldl (fun acc m => add_message acc sid m)
      { max_messages := cap, histories := [] }) sid = msgs.drop (msgs.length - cap) := by
    rw [get_history_fold]
    have hempty : get_history { max_messages := cap, histories := [] } sid = [] := rfl
    rw [hempty]
    have := fold_trimmed_eq cap hcap msgs [] (by simp)
    simpa using this
  refine ⟨hmain, ?_, ?_⟩
  · rw [hmain, List.length_drop]
    omega
  · rw [hmain]
    exact List.head?_drop msgs (msgs.length - cap)

/-- Witness: three appends against cap 2 keep exactly the last two
messages, in order, with the second append surviving as the oldest. -/
theorem c8_history_fifo_bound_witness :
    get_history ([Message.human "a", Message.ai "b", Message.human "c"].foldl
        (fun acc m => add_message acc "s1" m) { max_messages := 2, histories := [] }) "s1"
      = [Message.human "a", Message.ai "b", Message.human "c"].drop 1 ∧
    (get_history ([Message.human "a", Message.ai "b", Message.human "c"].foldl
        (fun acc m => add_message acc "s1" m) { max_messages := 2, histories := [] }) "s1").length
      = 2 ∧
    (get_history ([Message.human "a", Message.ai "b", Message.human "c"].foldl
        (fun acc m => add_message acc "s1" m) { max_messages := 2, histories := [] }) "s1").head?
      = [Message.human "a", Message.ai "b", Message.human "c"][1]? :=
  c8_history_fifo_bound 2 "s1" [Message.human "a", Message.ai "b", Message.human "c"]
    (by decide) (by decide)

/-- JSON whitespace characters. -/
def isJsonWs (c : Char) : Bool := c == ' ' || c == '\t' || c == '\n' || c == '\r'

/-- Skip leading JSON whitespace. -/
def skipWs : List Char → List Char
  | [] => []
  | c :: t => if isJsonWs c then skipWs t else c :: t

/-- Hexadecimal digit value. -/
def hexVal (c : Char) : Option Nat :=
  if '0' ≤ c ∧ c ≤ '9' then some (c.toNat - '0'.toNat)
  else if 'a' ≤ c ∧ c ≤ 'f' then some (c.toNat - 'a'.toNat + 10)
  else if 'A' ≤ c ∧ c ≤ 'F' then some (c.toNat - 'A'.toNat + 10)
  else none

/-- Split off a maximal run of decimal digits. -/
def takeDigits : List Char → List Char × List Char
  | [] => ([], [])
  | c :: t =>
    if c.isDigit then
      ((takeDigits t).1.cons c, (takeDigits t).2)
    else ([], c :: t)

/-- Value of a digit run. -/
def digitsToNat (ds : List Char) : Nat :=
  ds.foldl (fun acc c => acc * 10 + (c.toNat - '0'.toNat)) 0

/-- JSON values as python's json module produces them; numbers are exact
rationals, strings are code-point lists, objects keep member order. -/
inductive Json where
  | null : Json
  | bool (b : Bool) : Json
  | num (value : ℚ) : Json
  | str (s : List Char) : Json
  | arr (elements : List Json) : Json
  | obj (members : List (List Char × Json)) : Json

/-- Numeric value of sign, integer digits, fraction digits and exponent.
Python parses these to a binary float; the model keeps the exact decimal. -/
def decimalValue (neg : Bool) (intDigits fracDigits : List Char) (exp : Int) : ℚ :=
  let mant : ℚ := (digitsToNat (intDigits ++ fracDigits) : ℚ)
  (if neg then -mant else mant) / ((10 : ℚ) ^ fracDigits.length) * ((10 : ℚ) ^ exp)

/-- Parse an exponent after the letter e: optional sign then digits. -/
def parseExponent (input : List Char) : Option (Int × List Char) :=
  let signed : (Int × List Char) :=
    match input with
    | '+' :: t => (1, t)
    | '-' :: t => (-1, t)
    | _ => (1, input)
  let ds := takeDigits signed.2
  if ds.1.isEmpty then none else some (signed.1 * (digitsToNat ds.1 : Int), ds.2)

/-- Attach an optional exponent and produce the number token. -/
def finishNumber (neg : Bool) (intDigits fracDigits : List Char) :
    List Char → Option (Json × List Char)
  | 'e' :: t =>
    (parseExponent t).map (fun p => (Json.num (decimalValue neg intDigits fracDigits p.1), p.2))
  | 'E' :: t =>
    (parseExponent t).map (fun p => (Json.num (decimalValue neg intDigits fracDigits p.1), p.2))
  | input => some (Json.num (decimalValue neg intDigits fracDigits 0), input)

/-- Parse a JSON number (python json grammar: optional minus, 0 or a
nonzero-led digit run, optional fraction, optional exponent). -/
def parseNumber (input : List Char) : Option (Json × List Char) :=
  let signed : (Bool × List Char) :=
    match input with
    | '-' :: t => (true, t)
    | _ => (false, input)
  let ip := takeDigits signed.2
  if ip.1.isEmpty then none
  else if ip.1.length > 1 ∧ ip.1.headD '1' = '0' then none
  else
    match ip.2 with
    | '.' :: t =>
      let fp := takeDigits t
      if fp.1.isEmpty then none else finishNumber signed.1 ip.1 fp.1 fp.2
    | rest => finishNumber signed.1 ip.1 [] rest

/-- Single-character JSON escapes. -/
def escapeChar (c : Char) : Option Char :=
  if c = '"' then some '"'
  else if c = '\\' then some '\\'
  else if c = '/' then some '/'
  else if c = 'b' then some (Char.ofNat 8)
  else if c = 'f' then some (Char.ofNat 12)
  else if c = 'n' then some '\n'
  else if c = 'r' then some '\r'
  else if c = 't' then some '\t'
  else none

/-- Parse the body of a JSON string after the opening quote, handling the
standard escapes; a \u escape becomes its code point (surrogate pairs are
not combined, matching nothing the modelled inputs contain), and raw
control characters are rejected as python's strict json does. -/
def parseStringBody : Nat → List Char → Option (List Char × List Char)
  | 0, _ => none
  | _ + 1, [] => none
  | fuel + 1, c :: t =>
    if c = '"' then some ([], t)
    else if c = '\\' then
      match t with
      | 'u' :: h1 :: h2 :: h3 :: h4 :: t2 =>
        match hexVal h1, hexVal h2, hexVal h3, hexVal h4 with
        | some a, some b, some c2, some d =>
          (parseStringBody fuel t2).map
            (fun p => (Char.ofNat (((a * 16 + b) * 16 + c2) * 16 + d) :: p.1, p.2))
        | _, _, _, _ => none
      | e :: t2 =>
        match escapeChar e with
        | some ec => (parseStringBody fuel t2).map (fun p => (ec :: p.1, p.2))
        | none => none
      | [] => none
    else if c.toNat < 32 then none
    else (parseStringBody fuel t).map (fun p => (c :: p.1, p.2))

mutual

/-- Recursive-descent JSON value parser with fuel (two units of fuel per
input character always suffice). -/
def parseJsonValue : Nat → List Char → Option (Json × List Char)
  | 0, _ => none
  | fuel + 1, input =>
    match skipWs input with
    | 'n' :: 'u' :: 'l' :: 'l' :: r => some (Json.null, r)
    | 't' :: 'r' :: 'u' :: 'e' :: r => some (Json.bool true, r)
    | 'f' :: 'a' :: 'l' :: 's' :: 'e' :: r => some (Json.bool false, r)
    | '"' :: r => (parseStringBody fuel r).map (fun p => (Json.str p.1, p.2))
    | '[' :: r =>
      (match skipWs r with
       | ']' :: r2 => some (Json.arr [], r2)
       | r2 => (parseJsonElements fuel r2).map (fun p => (Json.arr p.1, p.2)))
    | '{' :: r =>
      (match skipWs r with
       | '}' :: r2 => some (Json.obj [], r2)
       | r2 => (parseJsonMembers fuel r2).map (fun p => (Json.obj p.1, p.2)))
    | other => parseNumber other

/-- Parse the elements of a non-empty JSON array. -/
def parseJsonElements : Nat → List Char → Option (List Json × List Char)
  | 0, _ => none
  | fuel + 1, input =>
    match parseJsonValue fuel input with
    | none => none
    | some (v, rest) =>
      match skipWs rest with
      | ',' :: r2 => (parseJsonElements fuel r2).map (fun p => (v :: p.1, p.2))
      | ']' :: r2 => some ([v], r2)
      | _ => none

/-- Parse the members of a non-empty JSON object. -/
def parseJsonMembers : Nat → List Char → Option (List (List Char × Json) × List Char)
  | 0, _ => none
  | fuel + 1, input =>
    match skipWs input with
    | '"' :: r =>
      match parseStringBody fuel r with
      | none => none
      | some (key, r2) =>
        match skipWs r2 with
        | ':' :: r3 =>
          match parseJsonValue fuel r3 with
          | none => none
          | some (v, r4) =>
            match skipWs r4 with
            | ',' :: r5 => (parseJsonMembers fuel r5).map (fun p => ((key, v) :: p.1, p.2))
            | '}' :: r5 => some ([(key, v)], r5)
            | _ => none
        | _ => none
    | _ => none

end

/-- Embedding of python json.loads on a character list: parse one value,
allow trailing whitespace, reject anything else. NaN and Infinity, which
python accepts by default, have no rational value and are not modelled. -/
def json_loads (input : List Char) : Option Json :=
  match parseJsonValue (2 * input.length + 4) input with
  | some (v, rest) => if (skipWs rest).isEmpty then some v else none
  | none => none

/-- Python dict .get on the parsed members; a duplicated key keeps the last
occurrence as python dicts do. -/
def pyGet (members : List (List Char × Json)) (key : List Char) : Option Json :=
  match members with
  | [] => none
  | (k, v) :: rest =>
    match pyGet rest key with
    | some r => some r
    | none => if k == key then some v else none

/-- Optional exponent tail of python float(str). -/
def pyFloatFinish (neg : Bool) (ip fp : List Char) : List Char → Option ℚ
  | [] => some (decimalValue neg ip fp 0)
  | 'e' :: t =>
    match parseExponent t with
    | some (e, r) => if r.isEmpty then some (decimalValue neg ip fp e) else none
    | none => none
  | 'E' :: t =>
    match parseExponent t with
    | some (e, r) => if r.isEmpty then some (decimalValue neg ip fp e) else none
    | none => none
  | _ => none

/-- Python float(str) on finite decimal forms: strip whitespace, optional
sign, digits with optional dot on either side, optional exponent. The
special values inf and nan have no rational counterpart and are not
modelled. -/
def pyFloatOfChars (cs : List Char) : Option ℚ :=
  let trimmed := ((cs.dropWhile Char.isWhitespace).reverse.dropWhile Char.isWhitespace).reverse
  let signed : (Bool × List Char) :=
    match trimmed with
    | '+' :: t => (false, t)
    | '-' :: t => (true, t)
    | _ => (false, trimmed)
  let ip := takeDigits signed.2
  match ip.2 with
  | '.' :: t =>
    let fp := takeDigits t
    if ip.1.isEmpty ∧ fp.1.isEmpty then none
    else pyFloatFinish signed.1 ip.1 fp.1 fp.2
  | rest =>
    if ip.1.isEmpty then none else pyFloatFinish signed.1 ip.1 [] rest

/-- Python float() applied to a JSON value: numbers pass through, booleans
become 0 or 1, numeric strings are parsed, everything else raises. -/
def pyFloat : Json → Option ℚ
  | Json.num v => some v
  | Json.bool b => some (if b then 1 else 0)
  | Json.str s => pyFloatOfChars s
  | Json.null => none
  | Json.arr _ => none
  | Json.obj _ => none

/-- Python str.find for one character: index of the first occurrence. -/
def firstIdx (c : Char) : List Char → Option Nat
  | [] => none
  | x :: t => if x == c then some 0 else (firstIdx c t).map (· + 1)

/-- Python str.rfind for one character: index of the last occurrence. -/
def lastIdx (c : Char) (cs : List Char) : Option Nat :=
  (firstIdx c cs.reverse).map (fun i => cs.length - 1 - i)

/-- Brace extraction of query_intent_chain.py _parse_ai_response: the slice
from the first open brace to the last close brace when response.find and
response.rfind make that slice non-empty. -/
def extract_json_candidate (response : String) : Option (List Char) :=
  match firstIdx (Char.ofNat 123) response.toList, lastIdx (Char.ofNat 125) response.toList with
  | some s, some e =>
    if s < e + 1 then some ((response.toList.drop s).take (e + 1 - s)) else none
  | _, _ => none

/-- Default intent analysis substituted on every parse failure. -/
def default_intent_analysis : IntentAnalysis :=
  { primary_intent := "general", confidence := 0, keywords := [], domain_scores := [],
    detected_department := none }

/-- Field extraction of query_intent_chain.py _parse_ai_response applied
to the json.loads outcome: a parsed object with a convertible confidence
yields the populated analysis, anything else raises inside the try block
and yields the default. The detected department follows its Optional[str]
annotation: JSON null, absence and non-string values all become none (for
a non-string value python would store the raw value, which the prompt
contract rules out); keyword entries that are not strings are likewise
dropped. -/
def parse_ai_from_json : Option Json → IntentAnalysis
  | some (Json.obj members) =>
    (match pyFloat ((pyGet members "confidence".toList).getD (Json.num 0)) with
     | some confidence =>
       let detected_str : Option String :=
         match pyGet members "detected_department".toList with
         | some (Json.str s) => some (String.mk s)
         | _ => none
       { primary_intent := if optStrTruthy detected_str then detected_str.getD "" else "general"
         confidence := confidence
         keywords :=
           match pyGet members "keywords".toList with
           | some (Json.arr es) =>
             es.filterMap (fun e =>
               match e with
               | Json.str s => some (String.mk s)
               | _ => none)
           | _ => []
         domain_scores :=
           if optStrTruthy detected_str then [(detected_str.getD "", confidence)] else []
         detected_department := detected_str }
     | none => default_intent_analysis)
  | _ => default_intent_analysis

/-- Embedding of query_intent_chain.py _parse_ai_response: extract the
brace-delimited candidate, run json.loads on it, read the fields, and fall
back to the default on any failure (missing braces, unparseable JSON, a
non-dict value, or an unconvertible confidence). -/
def parse_ai_response (response : String) : IntentAnalysis :=
  match extract_json_candidate response with
  | none => default_intent_analysis
  | some js => parse_ai_from_json (json_loads js)

/-- Whether a json.loads outcome fails to be an object (load failure or a
non-dict value). -/
def json_not_object : Option Json → Bool
  | some (Json.obj _) => false
  | some _ => true
  | none => true

/-- Whether a json.loads outcome is an object whose confidence member
cannot be converted by python float(). -/
def json_confidence_unfloatable : Option Json → Bool
  | some (Json.obj members) =>
    (pyFloat ((pyGet members "confidence".toList).getD (Json.num 0))).isNone
  | _ => false

/-- No valid JSON object between the braces: extraction fails, json.loads
fails, or the parsed value is not an object. -/
def no_valid_json_object (response : String) : Bool :=
  match extract_json_candidate response with
  | none => true
  | some js => json_not_object (json_loads js)

/-- The confidence member of the extracted object cannot be converted by
python float(). -/
def confidence_not_float (response : String) : Bool :=
  match extract_json_candidate response with
  | some js => json_confidence_unfloatable (json_loads js)
  | none => false

theorem c7_parse_failure_default (response : String)
    (h : no_valid_json_object response = true ∨ confidence_not_float response = true) :
    parse_ai_response response = default_intent_analysis := by
  unfold parse_ai_response
  rcases h with h | h
  · unfold no_valid_json_object at h
    cases hx : extract_json_candidate response with
    | none => rfl
    | some js =>
      rw [hx] at h
      have h2 : json_not_object (json_loads js) = true := h
      show parse_ai_from_json (json_loads js) = default_intent_analysis
      cases hp : json_loads js with
      | none => rfl
      | some j =>
        rw [hp] at h2
        cases j with
        | null => rfl
        | bool b => rfl
        | num v => rfl
        | str s => rfl
        | arr es => rfl
        | obj members => simp [json_not_object] at h2
  · unfold confidence_not_float at h
    cases hx : extract_json_candidate response with
    | none => rfl
    | some js =>
      rw [hx] at h
      have h2 : json_confidence_unfloatable (json_loads js) = true := h
      show parse_ai_from_json (json_loads js) = default_intent_analysis
      cases hp : json_loads js with
      | none => rfl
      | some j =>
        rw [hp] at h2
        cases j with
        | null => rfl
        | bool b => rfl
        | num v => rfl
        | str s => rfl
        | arr es => rfl
        | obj members =>
          simp only [parse_ai_from_json]
          cases hflo : pyFloat ((pyGet members "confidence".toList).getD (Json.num 0)) with
          | none => rfl
          | some c =>
            rw [json_confidence_unfloatable, hflo] at h2
            simp at h2

/-- Witness: a response with no braces at all parses to the default. -/
theorem c7_parse_failure_default_witness :
    parse_ai_response "抱歉，我无法判断这个问题的部门。" = default_intent_analysis :=
  c7_parse_failure_default "抱歉，我无法判断这个问题的部门。" (Or.inl (by decide))

end HRKB
